import Mathlib

/-!
Verification of the GoToMeeting release resolver
(`GoToMeeting/GoToMeetingURLProvider.py`).

The resolver downloads a JSON feed (possibly gzip-compressed), selects the
entry of `activeBuilds` with the maximum integer `buildNumber`, replaces the
final path segment of that entry's `macDownloadUrl` with `GoToMeeting.dmg`,
and reports the URL together with the build number.

The embedding below translates the Python source shallowly:

* JSON values parsed by `json.loads` become the inductive `JValue`
  (numbers restricted to integers; the feed's build numbers are integer
  strings, and no claim involves fractional numbers);
* Python exceptions become the inductive `PyError`, with one constructor per
  raise site / exception class that the source can produce;
* external collaborators (`download_to_file`, `json.loads` on raw bytes,
  gzip decompression, `socket.gethostbyname_ex`, the filesystem state seen by
  `os.makedirs`) are passed in as explicit function or value parameters.
-/

namespace G2M

/-- Python exceptions the source can raise or propagate, one constructor per
site.  `processorError` is the explicit `raise ProcessorError(...)`;
the `valueError...` and `osError...` constructors are the corresponding Python
exception classes raised by library calls and left uncaught (except where the
source catches them). -/
inductive PyError where
  | processorError (msg : String)
  | valueErrorJsonDecode
  | valueErrorMaxEmpty
  | valueErrorIntParse
  | typeError
  | keyError (k : String)
  | attributeError
  | osErrorMakedirs
  | osErrorGzip

/-- Python `except OSError` matches these constructors. -/
def isOSError : PyError → Bool
  | .osErrorMakedirs => true
  | .osErrorGzip => true
  | _ => false

/-- JSON values as produced by `json.loads`; numbers are restricted to
integers (the feed's build numbers are integer strings). -/
inductive JValue where
  | null
  | bool (b : Bool)
  | num (n : Int)
  | str (s : String)
  | arr (items : List JValue)
  | obj (fields : List (String × JValue))

/-- Python subscript `v[k]` on a parsed JSON value: dictionary lookup,
`KeyError` when the key is missing, `TypeError` when `v` is not a dict. -/
def jGetItem (v : JValue) (k : String) : Except PyError JValue :=
  match v with
  | .obj fields =>
    match fields.lookup k with
    | some x => .ok x
    | none => .error (.keyError k)
  | _ => .error .typeError

/-- Python `v.get(k)`: `None` when the key is missing, `AttributeError` when
`v` is not a dict. -/
def jGet (v : JValue) (k : String) : Except PyError (Option JValue) :=
  match v with
  | .obj fields => .ok (fields.lookup k)
  | _ => .error .attributeError

/-- Python truthiness of a JSON value (`if not x`). -/
def jTruthy : JValue → Bool
  | .null => false
  | .bool b => b
  | .num n => n != 0
  | .str s => s != ""
  | .arr items => !items.isEmpty
  | .obj fields => !fields.isEmpty

/-- Python iteration over a JSON value, as `max` iterates its argument: lists
yield their elements, strings yield one-character strings, dicts yield their
keys; other values raise `TypeError` (not iterable). -/
def jIter : JValue → Except PyError (List JValue)
  | .arr items => .ok items
  | .str s => .ok (s.data.map (fun c => .str (String.mk [c])))
  | .obj fields => .ok (fields.map (fun kv => .str kv.1))
  | _ => .error .typeError

/-- Whitespace accepted around a Python `int()` literal. -/
def pyIsSpace (c : Char) : Bool :=
  c = ' ' || c = '\t' || c = '\n' || c = '\r' || c = '\x0b' || c = '\x0c'

/-- Decimal digits after the first one of a Python `int()` literal: digits
optionally separated by single underscores. -/
def digitRun : Nat → List Char → Option Nat
  | acc, [] => some acc
  | _, ['_'] => none
  | acc, '_' :: c :: rest =>
    if c.isDigit then digitRun (10 * acc + (c.toNat - 48)) rest else none
  | acc, c :: rest =>
    if c.isDigit then digitRun (10 * acc + (c.toNat - 48)) rest else none

/-- Python `int()` applied to a `str`: optional surrounding whitespace, an
optional sign, then one or more decimal digits optionally separated by single
underscores.  `none` models the `ValueError` raised on any other string. -/
def pyInt (s : String) : Option Int :=
  let cs := ((s.data.dropWhile pyIsSpace).reverse.dropWhile pyIsSpace).reverse
  match cs with
  | '+' :: c :: rest =>
    if c.isDigit then (digitRun (c.toNat - 48) rest).map Int.ofNat else none
  | '-' :: c :: rest =>
    if c.isDigit then (digitRun (c.toNat - 48) rest).map (fun n => -(n : Int)) else none
  | ['+'] => none
  | ['-'] => none
  | c :: rest =>
    if c.isDigit then (digitRun (c.toNat - 48) rest).map Int.ofNat else none
  | [] => none

/-- Python `int()` applied to a JSON value: strings are parsed, integers pass
through, booleans become 0 or 1; `None`, lists and dicts raise `TypeError`. -/
def pyIntOf (v : JValue) : Except PyError Int :=
  match v with
  | .str s =>
    match pyInt s with
    | some n => .ok n
    | none => .error .valueErrorIntParse
  | .num n => .ok n
  | .bool b => .ok (if b then 1 else 0)
  | _ => .error .typeError

/-- Python `str()` of a JSON value.  The container cases cannot be reached
from `get_g2m_info`: the same value already passed `int()` inside the `max`
key, which raises `TypeError` on `None`, lists and dicts. -/
def pyStr : JValue → String
  | .null => "None"
  | .bool b => if b then "True" else "False"
  | .num n => toString n
  | .str s => s
  | .arr _ => "<list>"
  | .obj _ => "<dict>"

/-- The key function of the `max` call at line 89:
`lambda x: int(x["buildNumber"])`. -/
def buildKey (x : JValue) : Except PyError Int :=
  match jGetItem x "buildNumber" with
  | .error e => .error e
  | .ok v => pyIntOf v

/-- Scan of Python `max(..., key=...)` after the first element: keeps the
current best and replaces it when a strictly larger key appears (so the first
element attaining the maximum is returned), propagating any exception the key
function raises. -/
def pyMaxGo (best : JValue) (bestKey : Int) : List JValue → Except PyError JValue
  | [] => .ok best
  | x :: rest =>
    match buildKey x with
    | .error e => .error e
    | .ok k => if bestKey < k then pyMaxGo x k rest else pyMaxGo best bestKey rest

/-- Python `max(items, key=lambda x: int(x["buildNumber"]))`: `ValueError` on
an empty sequence, otherwise the first element with the maximum key. -/
def pyMax : List JValue → Except PyError JValue
  | [] => .error .valueErrorMaxEmpty
  | x :: rest =>
    match buildKey x with
    | .error e => .error e
    | .ok k => pyMaxGo x k rest

/-- Splitting a character list on the slash character, producing the pieces
of Python `str.split("/")`: first piece and remaining pieces. -/
def splitChAux : List Char → List Char × List (List Char)
  | [] => ([], [])
  | c :: rest =>
    if c = '/' then ([], (splitChAux rest).1 :: (splitChAux rest).2)
    else (c :: (splitChAux rest).1, (splitChAux rest).2)

/-- Python `str.split("/")` on a character list; always non-empty. -/
def splitCh (s : List Char) : List (List Char) :=
  (splitChAux s).1 :: (splitChAux s).2

/-- Python `"/".join(...)` on character lists. -/
def joinCh : List (List Char) → List Char
  | [] => []
  | [p] => p
  | p :: q :: rest => p ++ '/' :: joinCh (q :: rest)

/-- Python `g2m_url.split("/")`. -/
def pySplitSlash (s : String) : List String :=
  (splitCh s.data).map String.mk

/-- Python `"/".join(url_parts)`. -/
def pyJoinSlash (parts : List String) : String :=
  String.mk (joinCh (parts.map String.data))

/-- Python `url_parts[-1] = v` on a non-empty list. -/
def setLast (xs : List String) (v : String) : List String :=
  xs.dropLast ++ [v]

/-- Lines 96-98: split the URL on `/`, replace the final segment with the
literal `GoToMeeting.dmg`, rejoin; `AttributeError` when the value is not a
string (no `split` attribute). -/
def normalizeUrl : JValue → Except PyError String
  | .str s => .ok (pyJoinSlash (setLast (pySplitSlash s) "GoToMeeting.dmg"))
  | _ => .error .attributeError

/-- Message of the `ProcessorError` raised at lines 92-95. -/
def noDownloadUrlMsg : String :=
  "No download URL for the latest release found in the base_url JSON feed."

/-- Lines 89-102 of `get_g2m_info`: select the maximum-build entry of
`activeBuilds`, check its `macDownloadUrl` for truthiness, normalize the URL
and return it with `str()` of the entry's `buildNumber`. -/
def get_g2m_info (jsondata : JValue) : Except PyError (String × String) :=
  match jGetItem jsondata "activeBuilds" with
  | .error e => .error e
  | .ok builds =>
    match jIter builds with
    | .error e => .error e
    | .ok items =>
      match pyMax items with
      | .error e => .error e
      | .ok max_build =>
        match jGet max_build "macDownloadUrl" with
        | .error e => .error e
        | .ok none => .error (.processorError noDownloadUrlMsg)
        | .ok (some v) =>
          if jTruthy v then
            match normalizeUrl v with
            | .error e => .error e
            | .ok g2m_url =>
              match jGetItem max_build "buildNumber" with
              | .error e => .error e
              | .ok bn => .ok (g2m_url, pyStr bn)
          else .error (.processorError noDownloadUrlMsg)

/-- `os.makedirs(download_dir)`: raises `OSError` when the directory already
exists (the filesystem state is the boolean parameter). -/
def makedirs (dirExists : Bool) : Except PyError Unit :=
  if dirExists then .error .osErrorMakedirs else .ok ()

/-- Lines 70-74: `try: os.makedirs(...) except OSError: pass`. -/
def prepareDownloadDir (dirExists : Bool) : Except PyError Unit :=
  match makedirs dirExists with
  | .ok u => .ok u
  | .error e => if isOSError e then .ok () else .error e

/-- Lines 79-87: try `json.loads` on the raw bytes; on `ValueError` decompress
with gzip and parse again.  `json_loads` and `gzip_decompress` are the
external library calls, returning `none` for the `ValueError` respectively the
`OSError` they raise; a gzip failure or a failure of the second parse is not
caught by the source and propagates as the corresponding raw exception. -/
def decodeFeed (json_loads : List Nat → Option JValue)
    (gzip_decompress : List Nat → Option (List Nat))
    (bytes : List Nat) : Except PyError JValue :=
  match json_loads bytes with
  | some v => .ok v
  | none =>
    match gzip_decompress bytes with
    | none => .error .osErrorGzip
    | some decompressed =>
      match json_loads decompressed with
      | some v => .ok v
      | none => .error .valueErrorJsonDecode

/-- The whole of `get_g2m_info` (lines 64-102): prepare the download
directory, fetch the feed (`download_to_file` is the external fetch result:
the retrieved bytes, or the `ProcessorError` it raises), decode it, and
process the document. -/
def get_g2m_info_run (dirExists : Bool)
    (download_to_file : Except PyError (List Nat))
    (json_loads : List Nat → Option JValue)
    (gzip_decompress : List Nat → Option (List Nat)) :
    Except PyError (String × String) :=
  match prepareDownloadDir dirExists with
  | .error e => .error e
  | .ok _ =>
    match download_to_file with
    | .error e => .error e
    | .ok meta =>
      match decodeFeed json_loads gzip_decompress meta with
      | .error e => .error e
      | .ok jsondata => get_g2m_info jsondata

/-- The two output variables of the processor. -/
structure Env where
  url : Option String
  build : Option String

/-- `main` (lines 104-112): run `get_g2m_info`, then write `url` and `build`
into the environment; an exception propagates before any write, and the
`self.output` calls between the writes never fail. -/
def main_run (dirExists : Bool) (download_to_file : Except PyError (List Nat))
    (json_loads : List Nat → Option JValue)
    (gzip_decompress : List Nat → Option (List Nat)) (env : Env) :
    Except PyError Unit × Env :=
  match get_g2m_info_run dirExists download_to_file json_loads gzip_decompress with
  | .error e => (.error e, env)
  | .ok (g2m_url, g2m_build) =>
    let env1 : Env := ⟨some g2m_url, env.build⟩
    let env2 : Env := ⟨env1.url, some g2m_build⟩
    (.ok (), env2)

/-- The hardcoded hostname of line 33. -/
def HOSTNAME0 : String := "builds.cdn.getgo.com"

/-- Module-level `HOSTNAME` computation (lines 33-42).  `legacyMac` is the
condition `is_mac() and APLooseVersion(platform.mac_ver()[0]) <
APLooseVersion("10.13.0")`, evaluated by the external autopkglib helpers;
`gethostbyname_ex` is the external resolver returning the triple
(canonical hostname, alias list, IP address list).  The source keeps element
`[0]` of that triple: the canonical hostname. -/
def computeHOSTNAME (legacyMac : Bool)
    (gethostbyname_ex : String → String × List String × List String) : String :=
  if legacyMac then (gethostbyname_ex HOSTNAME0).1 else HOSTNAME0

/-- `BASE_URL` (line 44) as a function of the computed hostname. -/
def feedBaseUrl (hostname : String) : String :=
  "https://" ++ hostname ++ "/g2mupdater/live/config.json"

/-- A structured build entry, used to state claims over well-shaped feed
documents: `buildNumber` as the feed's string, `macDownloadUrl` optional. -/
structure BuildEntry where
  buildNumber : String
  macDownloadUrl : Option String
deriving DecidableEq

/-- The JSON object a structured entry denotes in the feed. -/
def entryToJson (e : BuildEntry) : JValue :=
  .obj ([("buildNumber", .str e.buildNumber)] ++
    (match e.macDownloadUrl with
     | some u => [("macDownloadUrl", .str u)]
     | none => []))

/-- A feed document with the given `activeBuilds` entries. -/
def feedToJson (entries : List BuildEntry) : JValue :=
  .obj [("activeBuilds", .arr (entries.map entryToJson))]

/-- Maximum of a list of integers (used to state the claims' notion of the
maximum numeric build number). -/
def listMaxInt : List Int → Option Int
  | [] => none
  | x :: xs =>
    match listMaxInt xs with
    | none => some x
    | some m => some (max x m)

/-- The maximum numeric `buildNumber` across a document's entries. -/
def maxBuildNumber (entries : List BuildEntry) : Option Int :=
  listMaxInt (entries.filterMap (fun e => pyInt e.buildNumber))

/-- The spec's `InvalidFeedFormat` failure class: the failures raised by the
decode phase when the bytes are neither plain JSON nor gzip-compressed JSON
(the uncaught gzip `OSError`, or the uncaught `ValueError` of the second
`json.loads`). -/
def isInvalidFeedFormat : PyError → Bool
  | .osErrorGzip => true
  | .valueErrorJsonDecode => true
  | _ => false

/-- The three failure classes named by the spec: `FeedUnavailable` and
`NoDownloadUrl` are `ProcessorError`s, `InvalidFeedFormat` the decode-phase
failures. -/
def isSpecifiedFailure (e : PyError) : Bool :=
  match e with
  | .processorError _ => true
  | _ => isInvalidFeedFormat e


theorem entry_buildKey (e : BuildEntry) :
    buildKey (entryToJson e) =
      (match pyInt e.buildNumber with
       | some n => Except.ok n
       | none => Except.error PyError.valueErrorIntParse) := by
  cases h : e.macDownloadUrl <;>
    simp [buildKey, entryToJson, jGetItem, List.lookup, h, pyIntOf]

theorem entry_jGet (e : BuildEntry) :
    jGet (entryToJson e) "macDownloadUrl" = .ok (e.macDownloadUrl.map JValue.str) := by
  cases h : e.macDownloadUrl <;>
    simp [jGet, entryToJson, List.lookup, h]

theorem entry_bn (e : BuildEntry) :
    jGetItem (entryToJson e) "buildNumber" = .ok (.str e.buildNumber) := by
  cases h : e.macDownloadUrl <;>
    simp [jGetItem, entryToJson, List.lookup, h]

theorem pyMaxGo_spec (items : List JValue) :
    ∀ (best : JValue) (bestKey : Int), buildKey best = .ok bestKey →
    (∀ x ∈ items, ∃ k, buildKey x = .ok k) →
    ∃ m km, pyMaxGo best bestKey items = .ok m ∧ buildKey m = .ok km ∧
      (m = best ∨ m ∈ items) ∧ bestKey ≤ km ∧
      ∀ x ∈ items, ∀ kx, buildKey x = .ok kx → kx ≤ km := by
  induction items with
  | nil =>
    intro best bestKey hbest _
    exact ⟨best, bestKey, rfl, hbest, Or.inl rfl, le_refl _, by simp⟩
  | cons x rest ih =>
    intro best bestKey hbest hall
    obtain ⟨k, hk⟩ := hall x (List.mem_cons_self x rest)
    have hrest : ∀ y ∈ rest, ∃ ky, buildKey y = .ok ky :=
      fun y hy => hall y (List.mem_cons_of_mem x hy)
    by_cases hlt : bestKey < k
    · obtain ⟨m, km, hrun, hkm, hmem, hle, hbound⟩ := ih x k hk hrest
      refine ⟨m, km, ?_, hkm, ?_, ?_, ?_⟩
      · simp [pyMaxGo, hk, hlt, hrun]
      · rcases hmem with h | h
        · exact Or.inr (h ▸ List.mem_cons_self x rest)
        · exact Or.inr (List.mem_cons_of_mem x h)
      · exact le_trans (le_of_lt hlt) hle
      · intro y hy ky hky
        rcases List.mem_cons.mp hy with h | h
        · subst h; rw [hk] at hky; injection hky with h2; omega
        · exact hbound y h ky hky
    · obtain ⟨m, km, hrun, hkm, hmem, hle, hbound⟩ := ih best bestKey hbest hrest
      refine ⟨m, km, ?_, hkm, ?_, hle, ?_⟩
      · simp [pyMaxGo, hk, hlt, hrun]
      · rcases hmem with h | h
        · exact Or.inl h
        · exact Or.inr (List.mem_cons_of_mem x h)
      · intro y hy ky hky
        rcases List.mem_cons.mp hy with h | h
        · subst h; rw [hk] at hky; injection hky with h2; omega
        · exact hbound y h ky hky

theorem pyMax_spec (items : List JValue) (hne : items ≠ [])
    (hall : ∀ x ∈ items, ∃ k, buildKey x = .ok k) :
    ∃ m km, pyMax items = .ok m ∧ buildKey m = .ok km ∧ m ∈ items ∧
      ∀ x ∈ items, ∀ kx, buildKey x = .ok kx → kx ≤ km := by
  cases items with
  | nil => exact absurd rfl hne
  | cons x rest =>
    obtain ⟨k, hk⟩ := hall x (List.mem_cons_self x rest)
    have hrest : ∀ y ∈ rest, ∃ ky, buildKey y = .ok ky :=
      fun y hy => hall y (List.mem_cons_of_mem x hy)
    obtain ⟨m, km, hrun, hkm, hmem, hle, hbound⟩ := pyMaxGo_spec rest x k hk hrest
    refine ⟨m, km, ?_, hkm, ?_, ?_⟩
    · simp [pyMax, hk, hrun]
    · rcases hmem with h | h
      · exact h ▸ List.mem_cons_self x rest
      · exact List.mem_cons_of_mem x h
    · intro y hy ky hky
      rcases List.mem_cons.mp hy with h | h
      · subst h; rw [hk] at hky; injection hky with h2; omega
      · exact hbound y h ky hky

theorem pyMaxGo_err (items : List JValue) :
    ∀ (best : JValue) (bestKey : Int),
    (∃ x ∈ items, buildKey x = .error PyError.valueErrorIntParse) →
    (∀ x ∈ items, buildKey x = .error PyError.valueErrorIntParse ∨ ∃ k, buildKey x = .ok k) →
    pyMaxGo best bestKey items = .error PyError.valueErrorIntParse := by
  induction items with
  | nil => intro _ _ hbad _; obtain ⟨x, hx, _⟩ := hbad; exact absurd hx (List.not_mem_nil x)
  | cons x rest ih =>
    intro best bestKey hbad hok
    rcases hok x (List.mem_cons_self x rest) with hx | ⟨k, hk⟩
    · simp [pyMaxGo, hx]
    · have hbad2 : ∃ y ∈ rest, buildKey y = .error PyError.valueErrorIntParse := by
        obtain ⟨y, hy, hyerr⟩ := hbad
        rcases List.mem_cons.mp hy with h | h
        · rw [h, hk] at hyerr; exact absurd hyerr (by simp)
        · exact ⟨y, h, hyerr⟩
      have hok2 : ∀ y ∈ rest, buildKey y = .error PyError.valueErrorIntParse ∨ ∃ ky, buildKey y = .ok ky :=
        fun y hy => hok y (List.mem_cons_of_mem x hy)
      by_cases hlt : bestKey < k <;> simp [pyMaxGo, hk, hlt, ih _ _ hbad2 hok2]

theorem pyMax_err (items : List JValue)
    (hbad : ∃ x ∈ items, buildKey x = .error PyError.valueErrorIntParse)
    (hok : ∀ x ∈ items, buildKey x = .error PyError.valueErrorIntParse ∨ ∃ k, buildKey x = .ok k) :
    pyMax items = .error PyError.valueErrorIntParse := by
  cases items with
  | nil => obtain ⟨x, hx, _⟩ := hbad; exact absurd hx (List.not_mem_nil x)
  | cons x rest =>
    rcases hok x (List.mem_cons_self x rest) with hx | ⟨k, hk⟩
    · simp [pyMax, hx]
    · have hbad2 : ∃ y ∈ rest, buildKey y = .error PyError.valueErrorIntParse := by
        obtain ⟨y, hy, hyerr⟩ := hbad
        rcases List.mem_cons.mp hy with h | h
        · rw [h, hk] at hyerr; exact absurd hyerr (by simp)
        · exact ⟨y, h, hyerr⟩
      have hok2 : ∀ y ∈ rest, buildKey y = .error PyError.valueErrorIntParse ∨ ∃ ky, buildKey y = .ok ky :=
        fun y hy => hok y (List.mem_cons_of_mem x hy)
      simp [pyMax, hk, pyMaxGo_err rest x k hbad2 hok2]

theorem listMaxInt_mem (l : List Int) (m : Int) (h : listMaxInt l = some m) : m ∈ l := by
  induction l generalizing m with
  | nil => simp [listMaxInt] at h
  | cons x xs ih =>
    rw [listMaxInt] at h
    cases hxs : listMaxInt xs with
    | none => rw [hxs] at h; injection h with h; exact h ▸ List.mem_cons_self x xs
    | some mx =>
      rw [hxs] at h; injection h with h
      rcases max_choice x mx with hm | hm
      · rw [hm] at h; exact h ▸ List.mem_cons_self x xs
      · rw [hm] at h; exact List.mem_cons_of_mem x (h ▸ ih mx hxs)

theorem listMaxInt_ge (l : List Int) (x : Int) (hx : x ∈ l) :
    ∃ m, listMaxInt l = some m ∧ x ≤ m := by
  induction l with
  | nil => exact absurd hx (List.not_mem_nil x)
  | cons y ys ih =>
    rcases List.mem_cons.mp hx with h | h
    · subst h
      cases hys : listMaxInt ys with
      | none => exact ⟨x, by rw [listMaxInt, hys], le_refl x⟩
      | some m => exact ⟨max x m, by rw [listMaxInt, hys], le_max_left x m⟩
    · obtain ⟨m, hm, hle⟩ := ih h
      exact ⟨max y m, by rw [listMaxInt, hm], le_trans hle (le_max_right y m)⟩

theorem listMaxInt_eq (l : List Int) (k : Int) (hmem : k ∈ l)
    (hle : ∀ x ∈ l, x ≤ k) : listMaxInt l = some k := by
  obtain ⟨m, hm, hkm⟩ := listMaxInt_ge l k hmem
  have hmk : m ≤ k := hle m (listMaxInt_mem l m hm)
  rw [hm, le_antisymm hmk hkm]

theorem splitChAux_pieces (s : List Char) :
    '/' ∉ (splitChAux s).1 ∧ ∀ p ∈ (splitChAux s).2, '/' ∉ p := by
  induction s with
  | nil => simp [splitChAux]
  | cons c rest ih =>
    by_cases hc : c = '/'
    · refine ⟨by simp [splitChAux, hc], ?_⟩
      intro p hp
      rw [splitChAux] at hp; simp only [hc, if_pos rfl] at hp
      rcases List.mem_cons.mp hp with h | h
      · exact h ▸ ih.1
      · exact ih.2 p h
    · refine ⟨?_, ?_⟩
      · rw [splitChAux]; simp only [if_neg hc]
        intro hmem
        rcases List.mem_cons.mp hmem with h | h
        · exact hc h.symm
        · exact ih.1 h
      · intro p hp
        rw [splitChAux] at hp; simp only [if_neg hc] at hp
        exact ih.2 p hp

theorem splitCh_pieces (s : List Char) : ∀ p ∈ splitCh s, '/' ∉ p := by
  intro p hp
  rcases List.mem_cons.mp hp with h | h
  · exact h ▸ (splitChAux_pieces s).1
  · exact (splitChAux_pieces s).2 p h

theorem splitChAux_append (p rest : List Char) (hp : '/' ∉ p) :
    splitChAux (p ++ rest) = (p ++ (splitChAux rest).1, (splitChAux rest).2) := by
  induction p with
  | nil => simp
  | cons c cs ih =>
    have hc : ¬c = '/' := fun h => hp (h ▸ List.mem_cons_self c cs)
    have hcs : '/' ∉ cs := fun h => hp (List.mem_cons_of_mem c h)
    simp [splitChAux, hc, ih hcs]

theorem splitCh_joinCh (ps : List (List Char)) (hne : ps ≠ [])
    (hfree : ∀ p ∈ ps, '/' ∉ p) : splitCh (joinCh ps) = ps := by
  induction ps with
  | nil => exact absurd rfl hne
  | cons p qs ih =>
    have hp : '/' ∉ p := hfree p (List.mem_cons_self p qs)
    cases qs with
    | nil =>
      have : splitChAux (p ++ []) = (p ++ (splitChAux []).1, (splitChAux []).2) :=
        splitChAux_append p [] hp
      simp only [List.append_nil, splitChAux] at this
      simp [splitCh, joinCh, this]
    | cons q rest =>
      have hqs : ∀ r ∈ q :: rest, '/' ∉ r :=
        fun r hr => hfree r (List.mem_cons_of_mem p hr)
      have ihq := ih (by simp) hqs
      rw [splitCh] at ihq
      injection ihq with h1 h2
      have hjoin : joinCh (p :: q :: rest) = p ++ '/' :: joinCh (q :: rest) := rfl
      have hslash : splitChAux ('/' :: joinCh (q :: rest)) =
          ([], (splitChAux (joinCh (q :: rest))).1 :: (splitChAux (joinCh (q :: rest))).2) := by
        simp [splitChAux]
      rw [splitCh, hjoin, splitChAux_append p _ hp, hslash, h1, h2]
      simp

theorem pySplitSlash_pieces (u : String) : ∀ p ∈ pySplitSlash u, '/' ∉ p.data := by
  intro p hp
  rw [pySplitSlash] at hp
  obtain ⟨cs, hcs, hmk⟩ := List.mem_map.mp hp
  rw [← hmk]
  exact splitCh_pieces u.data cs hcs

theorem pySplitSlash_pyJoinSlash (parts : List String) (hne : parts ≠ [])
    (hfree : ∀ p ∈ parts, '/' ∉ p.data) :
    pySplitSlash (pyJoinSlash parts) = parts := by
  rw [pySplitSlash, pyJoinSlash]
  have hdata : (String.mk (joinCh (parts.map String.data))).data =
      joinCh (parts.map String.data) := rfl
  rw [hdata, splitCh_joinCh (parts.map String.data) (by simpa using hne)
    (by intro p hp; obtain ⟨s, hs, hd⟩ := List.mem_map.mp hp; exact hd ▸ hfree s hs)]
  rw [List.map_map]
  have : (String.mk ∘ String.data) = id := by funext s; rfl
  rw [this, List.map_id]

theorem normalized_last_segment (u : String) :
    (pySplitSlash (pyJoinSlash (setLast (pySplitSlash u) "GoToMeeting.dmg"))).getLast? =
      some "GoToMeeting.dmg" := by
  have hne : setLast (pySplitSlash u) "GoToMeeting.dmg" ≠ [] := by
    rw [setLast]; simp
  have hfree : ∀ p ∈ setLast (pySplitSlash u) "GoToMeeting.dmg", '/' ∉ p.data := by
    intro p hp
    rw [setLast] at hp
    rcases List.mem_append.mp hp with h | h
    · exact pySplitSlash_pieces u p (List.dropLast_subset _ h)
    · rw [List.mem_singleton.mp h]; decide
  rw [pySplitSlash_pyJoinSlash _ hne hfree, setLast, List.getLast?_concat]

theorem get_g2m_info_feed (entries : List BuildEntry) :
    get_g2m_info (feedToJson entries) =
      (match pyMax (entries.map entryToJson) with
       | .error e => .error e
       | .ok max_build =>
         match jGet max_build "macDownloadUrl" with
         | .error e => .error e
         | .ok none => .error (.processorError noDownloadUrlMsg)
         | .ok (some v) =>
           if jTruthy v then
             match normalizeUrl v with
             | .error e => .error e
             | .ok g2m_url =>
               match jGetItem max_build "buildNumber" with
               | .error e => .error e
               | .ok bn => .ok (g2m_url, pyStr bn)
           else .error (.processorError noDownloadUrlMsg)) := rfl
theorem feed_max_entry (entries : List BuildEntry) (hne : entries ≠ [])
    (hkeys : ∀ x ∈ entries, (pyInt x.buildNumber).isSome = true) :
    ∃ e km, e ∈ entries ∧
      pyMax (entries.map entryToJson) = Except.ok (entryToJson e) ∧
      pyInt e.buildNumber = some km ∧ maxBuildNumber entries = some km := by
  have hall : ∀ x ∈ entries.map entryToJson, ∃ k, buildKey x = Except.ok k := by
    intro x hx
    obtain ⟨e, he, hex⟩ := List.mem_map.mp hx
    obtain ⟨k, hk⟩ := Option.isSome_iff_exists.mp (hkeys e he)
    exact ⟨k, by rw [← hex, entry_buildKey, hk]⟩
  have hne2 : entries.map entryToJson ≠ [] := by simpa using hne
  obtain ⟨m, km, hpyMax, hkm, hmem, hbound⟩ := pyMax_spec _ hne2 hall
  obtain ⟨e, he, hem⟩ := List.mem_map.mp hmem
  have hpe : pyInt e.buildNumber = some km := by
    rw [← hem, entry_buildKey] at hkm
    cases hpi : pyInt e.buildNumber with
    | none => rw [hpi] at hkm; exact absurd hkm (by simp)
    | some n => rw [hpi] at hkm; injection hkm with h; rw [h]
  have hmaxeq : maxBuildNumber entries = some km := by
    apply listMaxInt_eq
    · exact List.mem_filterMap.mpr ⟨e, he, hpe⟩
    · intro x hx
      obtain ⟨a, ha, hpa⟩ := List.mem_filterMap.mp hx
      exact hbound (entryToJson a) (List.mem_map_of_mem _ ha) x
        (by rw [entry_buildKey, hpa])
  exact ⟨e, km, he, by rw [hem, hpyMax], hpe, hmaxeq⟩
/-- C1: for every feed document whose `activeBuilds` list is non-empty, whose
build numbers all parse as integers, and whose maximum-numeric-build entries
all carry a non-empty `macDownloadUrl`, the resolver succeeds and returns a
URL whose final path segment (after splitting on `/`) is exactly
`GoToMeeting.dmg`, together with a build number string equal to the maximum
numeric `buildNumber` across all entries; and on the two-entry example
document with builds 1000 and 1050 it returns the URL
`https://cdn.example.com/1050/GoToMeeting.dmg` and the build `1050`. -/
theorem C1_resolve_returns_max_build :
    (∀ (entries : List BuildEntry), entries ≠ [] →
      (∀ x ∈ entries, (pyInt x.buildNumber).isSome = true) →
      (∀ e ∈ entries, pyInt e.buildNumber = maxBuildNumber entries →
        e.macDownloadUrl ≠ none ∧ e.macDownloadUrl ≠ some "") →
      ∃ u b, get_g2m_info (feedToJson entries) = Except.ok (u, b) ∧
        (pySplitSlash u).getLast? = some "GoToMeeting.dmg" ∧
        pyInt b = maxBuildNumber entries) ∧
    get_g2m_info (feedToJson
      [⟨"1000", some "https://cdn.example.com/1000/OldApp.dmg"⟩,
       ⟨"1050", some "https://cdn.example.com/1050/NewApp.dmg"⟩]) =
      Except.ok ("https://cdn.example.com/1050/GoToMeeting.dmg", "1050") := by
  constructor
  · intro entries hne hkeys hurl
    obtain ⟨e, km, he, hpyMax, hpe, hmaxeq⟩ := feed_max_entry entries hne hkeys
    obtain ⟨hnn, hns⟩ := hurl e he (by rw [hpe, hmaxeq])
    cases hmu : e.macDownloadUrl with
    | none => exact absurd hmu hnn
    | some u =>
      have hu : u ≠ "" := fun h => hns (by rw [hmu, h])
      have hb : jTruthy (JValue.str u) = true := by simp [jTruthy, hu]
      refine ⟨pyJoinSlash (setLast (pySplitSlash u) "GoToMeeting.dmg"), e.buildNumber,
        ?_, normalized_last_segment u, by rw [hpe, hmaxeq]⟩
      rw [get_g2m_info_feed, hpyMax]
      simp only [entry_jGet, hmu, Option.map_some', hb, if_true, entry_bn]
      rfl
  · rfl

/-- C2: for every feed document whose build numbers all parse as integers and
whose maximum-numeric-build entries all have an absent or empty
`macDownloadUrl`, the resolver fails with the NoDownloadUrl `ProcessorError`,
regardless of the URLs carried by lower-numbered entries (no fallback
occurs). -/
theorem C2_missing_url_no_fallback :
    ∀ (entries : List BuildEntry), entries ≠ [] →
      (∀ x ∈ entries, (pyInt x.buildNumber).isSome = true) →
      (∀ e ∈ entries, pyInt e.buildNumber = maxBuildNumber entries →
        e.macDownloadUrl = none ∨ e.macDownloadUrl = some "") →
      get_g2m_info (feedToJson entries) =
        Except.error (PyError.processorError noDownloadUrlMsg) := by
  intro entries hne hkeys hurl
  obtain ⟨e, km, he, hpyMax, hpe, hmaxeq⟩ := feed_max_entry entries hne hkeys
  rcases hurl e he (by rw [hpe, hmaxeq]) with hmu | hmu
  · rw [get_g2m_info_feed, hpyMax]
    simp only [entry_jGet, hmu, Option.map_none']
  · rw [get_g2m_info_feed, hpyMax]
    have hb : jTruthy (JValue.str "") = false := rfl
    simp only [entry_jGet, hmu, Option.map_some', hb]
    rfl
/-- C5: build numbers are compared as integers, not as strings: in a document
containing entries with build numbers 9 and 10 (in either order), the
resolver selects the entry with build number 10. -/
theorem C5_numeric_not_lexicographic :
    ∀ u9 u10 : String, u10 ≠ "" →
      (∃ u, get_g2m_info (feedToJson [⟨"9", some u9⟩, ⟨"10", some u10⟩]) =
        Except.ok (u, "10")) ∧
      (∃ u, get_g2m_info (feedToJson [⟨"10", some u10⟩, ⟨"9", some u9⟩]) =
        Except.ok (u, "10")) := by
  intro u9 u10 h10
  have hb : jTruthy (JValue.str u10) = true := by simp [jTruthy, h10]
  have hmax1 : pyMax (([⟨"9", some u9⟩, ⟨"10", some u10⟩] : List BuildEntry).map entryToJson) =
      Except.ok (entryToJson ⟨"10", some u10⟩) := rfl
  have hmax2 : pyMax (([⟨"10", some u10⟩, ⟨"9", some u9⟩] : List BuildEntry).map entryToJson) =
      Except.ok (entryToJson ⟨"10", some u10⟩) := rfl
  constructor
  · refine ⟨pyJoinSlash (setLast (pySplitSlash u10) "GoToMeeting.dmg"), ?_⟩
    rw [get_g2m_info_feed, hmax1]
    simp only [entry_jGet, Option.map_some', hb, if_true, entry_bn]
    rfl
  · refine ⟨pyJoinSlash (setLast (pySplitSlash u10) "GoToMeeting.dmg"), ?_⟩
    rw [get_g2m_info_feed, hmax2]
    simp only [entry_jGet, Option.map_some', hb, if_true, entry_bn]
    rfl

/-- C3: for every input byte sequence that is neither valid plain JSON nor
valid gzip-compressed JSON, the resolution fails with the decode-phase
failure the spec calls `InvalidFeedFormat` (and with no other kind of
failure). -/
theorem C3_invalid_feed_format :
    ∀ (dirExists : Bool) (json_loads : List Nat → Option JValue)
      (gzip_decompress : List Nat → Option (List Nat)) (bytes : List Nat),
      json_loads bytes = none →
      (gzip_decompress bytes = none ∨
        ∃ d, gzip_decompress bytes = some d ∧ json_loads d = none) →
      ∃ e, get_g2m_info_run dirExists (Except.ok bytes) json_loads gzip_decompress =
          Except.error e ∧ isInvalidFeedFormat e = true := by
  intro dirE jl gz bytes hjl hgz
  have hprep : prepareDownloadDir dirE = Except.ok () := by cases dirE <;> rfl
  rcases hgz with h | ⟨d, hd, hjd⟩
  · exact ⟨.osErrorGzip, by simp [get_g2m_info_run, hprep, decodeFeed, hjl, h], rfl⟩
  · exact ⟨.valueErrorJsonDecode,
      by simp [get_g2m_info_run, hprep, decodeFeed, hjl, hd, hjd], rfl⟩

/-- C4: for every byte sequence that is valid JSON, running the resolution on
its gzip compression (which is not valid plain JSON) produces exactly the
same result as running it on the plain bytes. -/
theorem C4_gzip_same_result :
    ∀ (dirExists : Bool) (json_loads : List Nat → Option JValue)
      (gzip_decompress : List Nat → Option (List Nat))
      (b g : List Nat) (doc : JValue),
      json_loads b = some doc →
      json_loads g = none →
      gzip_decompress g = some b →
      get_g2m_info_run dirExists (Except.ok g) json_loads gzip_decompress =
        get_g2m_info_run dirExists (Except.ok b) json_loads gzip_decompress := by
  intro dirE jl gz b g doc hb hg hgz
  have hprep : prepareDownloadDir dirE = Except.ok () := by cases dirE <;> rfl
  simp [get_g2m_info_run, hprep, decodeFeed, hb, hg, hgz]

/-- C6: resolution is all-or-nothing for the two outputs: starting from an
environment with neither output set, `main` either writes both `url` and
`build` (on success) or leaves both unset (on any failure). -/
theorem C6_all_or_nothing :
    ∀ (dirExists : Bool) (download_to_file : Except PyError (List Nat))
      (json_loads : List Nat → Option JValue)
      (gzip_decompress : List Nat → Option (List Nat)),
      (match main_run dirExists download_to_file json_loads gzip_decompress ⟨none, none⟩ with
       | (Except.ok _, env) => env.url.isSome = true ∧ env.build.isSome = true
       | (Except.error _, env) => env.url = none ∧ env.build = none) := by
  intro dirE fetch jl gz
  cases h : get_g2m_info_run dirE fetch jl gz with
  | error e => simp [main_run, h]
  | ok p => cases p with | mk u b => simp [main_run, h]

/-- A concrete resolver result for `builds.cdn.getgo.com`: canonical hostname
distinct from every address of the IP address list. -/
def exampleLookup : String → String × List String × List String :=
  fun _ => ("builds-origin.example.net", ([], ["203.0.113.5", "203.0.113.6"]))

/-- C7 counterexample: under the legacy-OS condition the module does not use
a literal IP address from the resolver: with a resolver whose canonical
hostname differs from all of its IP addresses, the computed `HOSTNAME` is the
canonical hostname and is not among the resolver's IP addresses. -/
theorem C7_counterexample_not_ip :
    computeHOSTNAME true exampleLookup = "builds-origin.example.net" ∧
    computeHOSTNAME true exampleLookup ∉ (exampleLookup HOSTNAME0).2.2 := by
  exact ⟨rfl, by decide⟩

/-- C7 amended: under the legacy-OS condition, the module at load time
resolves the hardcoded hostname and uses the canonical hostname returned by
`socket.gethostbyname_ex` (the first component of its triple, not an IP
address) in the default feed URL; outside that condition the hardcoded
hostname itself is used. -/
theorem C7_legacy_uses_canonical_hostname :
    ∀ lookup : String → String × List String × List String,
      computeHOSTNAME true lookup = (lookup "builds.cdn.getgo.com").1 ∧
      computeHOSTNAME false lookup = "builds.cdn.getgo.com" ∧
      feedBaseUrl (computeHOSTNAME true lookup) =
        "https://" ++ (lookup "builds.cdn.getgo.com").1 ++ "/g2mupdater/live/config.json" := by
  intro lookup
  exact ⟨rfl, rfl, rfl⟩

/-- C8: preparing the cache download directory is idempotent: `os.makedirs`
raises `OSError` when the directory already exists, the resolver treats that
as success, and the whole resolution behaves identically whether or not the
directory existed beforehand. -/
theorem C8_makedirs_idempotent :
    ∀ (download_to_file : Except PyError (List Nat))
      (json_loads : List Nat → Option JValue)
      (gzip_decompress : List Nat → Option (List Nat)),
      makedirs true = Except.error PyError.osErrorMakedirs ∧
      prepareDownloadDir true = Except.ok () ∧
      get_g2m_info_run true download_to_file json_loads gzip_decompress =
        get_g2m_info_run false download_to_file json_loads gzip_decompress := by
  intro fetch jl gz
  exact ⟨rfl, rfl, rfl⟩

/-- C9: for every feed document that parses as JSON and whose `activeBuilds`
list is empty, the resolver fails with the uncaught `ValueError` of `max()`
on an empty sequence, which is none of the three failures the spec
specifies. -/
theorem C9_empty_builds_uncaught :
    ∀ (fields : List (String × JValue)),
      fields.lookup "activeBuilds" = some (JValue.arr []) →
      get_g2m_info (JValue.obj fields) = Except.error PyError.valueErrorMaxEmpty ∧
      isSpecifiedFailure PyError.valueErrorMaxEmpty = false := by
  intro fields h
  refine ⟨?_, rfl⟩
  simp [get_g2m_info, jGetItem, h, jIter, pyMax]

/-- C10: the max-scan applies `int()` to the `buildNumber` of every entry, so
a document containing any entry whose `buildNumber` is not a valid integer
string makes the resolver fail with the uncaught conversion `ValueError`
(none of the three specified failures), even when that entry is not the
maximum-build entry. -/
theorem C10_bad_build_number_uncaught :
    ∀ (entries : List BuildEntry),
      (∃ e ∈ entries, pyInt e.buildNumber = none) →
      get_g2m_info (feedToJson entries) = Except.error PyError.valueErrorIntParse ∧
      isSpecifiedFailure PyError.valueErrorIntParse = false := by
  intro entries hbad
  refine ⟨?_, rfl⟩
  have hbad2 : ∃ x ∈ entries.map entryToJson,
      buildKey x = Except.error PyError.valueErrorIntParse := by
    obtain ⟨e, he, hpe⟩ := hbad
    exact ⟨entryToJson e, List.mem_map_of_mem _ he, by rw [entry_buildKey, hpe]⟩
  have hok : ∀ x ∈ entries.map entryToJson,
      buildKey x = Except.error PyError.valueErrorIntParse ∨ ∃ k, buildKey x = Except.ok k := by
    intro x hx
    obtain ⟨e, he, hex⟩ := List.mem_map.mp hx
    cases hpe : pyInt e.buildNumber with
    | none => exact Or.inl (by rw [← hex, entry_buildKey, hpe])
    | some n => exact Or.inr ⟨n, by rw [← hex, entry_buildKey, hpe]⟩
  rw [get_g2m_info_feed, pyMax_err _ hbad2 hok]
/-- Witness for C1 at the two-entry example document. -/
theorem C1_resolve_returns_max_build_witness :
    (([⟨"1000", some "https://cdn.example.com/1000/OldApp.dmg"⟩,
       ⟨"1050", some "https://cdn.example.com/1050/NewApp.dmg"⟩] : List BuildEntry) ≠ []) ∧
    (∀ x ∈ ([⟨"1000", some "https://cdn.example.com/1000/OldApp.dmg"⟩,
       ⟨"1050", some "https://cdn.example.com/1050/NewApp.dmg"⟩] : List BuildEntry),
      (pyInt x.buildNumber).isSome = true) ∧
    (∀ e ∈ ([⟨"1000", some "https://cdn.example.com/1000/OldApp.dmg"⟩,
       ⟨"1050", some "https://cdn.example.com/1050/NewApp.dmg"⟩] : List BuildEntry),
      pyInt e.buildNumber = maxBuildNumber
        [⟨"1000", some "https://cdn.example.com/1000/OldApp.dmg"⟩,
         ⟨"1050", some "https://cdn.example.com/1050/NewApp.dmg"⟩] →
      e.macDownloadUrl ≠ none ∧ e.macDownloadUrl ≠ some "") ∧
    (∃ u b, get_g2m_info (feedToJson
        [⟨"1000", some "https://cdn.example.com/1000/OldApp.dmg"⟩,
         ⟨"1050", some "https://cdn.example.com/1050/NewApp.dmg"⟩]) = Except.ok (u, b) ∧
      (pySplitSlash u).getLast? = some "GoToMeeting.dmg" ∧
      pyInt b = maxBuildNumber
        [⟨"1000", some "https://cdn.example.com/1000/OldApp.dmg"⟩,
         ⟨"1050", some "https://cdn.example.com/1050/NewApp.dmg"⟩]) :=
  ⟨by decide, by decide, by decide,
   C1_resolve_returns_max_build.1 _ (by decide) (by decide) (by decide)⟩

/-- Witness for C2: the higher build 1050 has no URL while the lower build
1000 has a valid one; resolution still fails with the NoDownloadUrl error. -/
theorem C2_missing_url_no_fallback_witness :
    (([⟨"1000", some "https://cdn.example.com/1000/OldApp.dmg"⟩,
       ⟨"1050", none⟩] : List BuildEntry) ≠ []) ∧
    (∀ x ∈ ([⟨"1000", some "https://cdn.example.com/1000/OldApp.dmg"⟩,
       ⟨"1050", none⟩] : List BuildEntry), (pyInt x.buildNumber).isSome = true) ∧
    (∀ e ∈ ([⟨"1000", some "https://cdn.example.com/1000/OldApp.dmg"⟩,
       ⟨"1050", none⟩] : List BuildEntry),
      pyInt e.buildNumber = maxBuildNumber
        [⟨"1000", some "https://cdn.example.com/1000/OldApp.dmg"⟩, ⟨"1050", none⟩] →
      e.macDownloadUrl = none ∨ e.macDownloadUrl = some "") ∧
    get_g2m_info (feedToJson
        [⟨"1000", some "https://cdn.example.com/1000/OldApp.dmg"⟩, ⟨"1050", none⟩]) =
      Except.error (PyError.processorError noDownloadUrlMsg) :=
  ⟨by decide, by decide, by decide,
   C2_missing_url_no_fallback _ (by decide) (by decide) (by decide)⟩

/-- Witness for C3: bytes on which both JSON parsing and gzip decompression
fail. -/
theorem C3_invalid_feed_format_witness :
    ((fun _ : List Nat => (none : Option JValue)) [0] = none) ∧
    (((fun _ : List Nat => (none : Option (List Nat))) [0] = none) ∨
      ∃ d, (fun _ : List Nat => (none : Option (List Nat))) [0] = some d ∧
        (fun _ : List Nat => (none : Option JValue)) d = none) ∧
    (∃ e, get_g2m_info_run false (Except.ok [0])
        (fun _ => none) (fun _ => none) = Except.error e ∧
      isInvalidFeedFormat e = true) :=
  ⟨rfl, Or.inl rfl,
   C3_invalid_feed_format false (fun _ => none) (fun _ => none) [0] rfl (Or.inl rfl)⟩

/-- Witness for C4 with a concrete parser and decompressor: `[1]` is the
plain document, `[2]` its compression. -/
theorem C4_gzip_same_result_witness :
    ((fun bs : List Nat => if bs = [1] then some JValue.null else none) [1] =
      some JValue.null) ∧
    ((fun bs : List Nat => if bs = [1] then some JValue.null else none) [2] = none) ∧
    ((fun bs : List Nat => if bs = [2] then some [1] else none) [2] = some [1]) ∧
    get_g2m_info_run false (Except.ok [2])
        (fun bs => if bs = [1] then some JValue.null else none)
        (fun bs => if bs = [2] then some [1] else none) =
      get_g2m_info_run false (Except.ok [1])
        (fun bs => if bs = [1] then some JValue.null else none)
        (fun bs => if bs = [2] then some [1] else none) :=
  ⟨rfl, rfl, rfl,
   C4_gzip_same_result false
     (fun bs => if bs = [1] then some JValue.null else none)
     (fun bs => if bs = [2] then some [1] else none) [1] [2] JValue.null rfl rfl rfl⟩

/-- Witness for C5 at concrete URLs. -/
theorem C5_numeric_not_lexicographic_witness :
    ("https://cdn.example.com/10/NewApp.dmg" ≠ "") ∧
    ((∃ u, get_g2m_info (feedToJson
        [⟨"9", some "https://cdn.example.com/9/OldApp.dmg"⟩,
         ⟨"10", some "https://cdn.example.com/10/NewApp.dmg"⟩]) = Except.ok (u, "10")) ∧
     (∃ u, get_g2m_info (feedToJson
        [⟨"10", some "https://cdn.example.com/10/NewApp.dmg"⟩,
         ⟨"9", some "https://cdn.example.com/9/OldApp.dmg"⟩]) = Except.ok (u, "10"))) :=
  ⟨by decide,
   C5_numeric_not_lexicographic "https://cdn.example.com/9/OldApp.dmg"
     "https://cdn.example.com/10/NewApp.dmg" (by decide)⟩

/-- Witness for C9 at the one-field document with an empty build list. -/
theorem C9_empty_builds_uncaught_witness :
    (([("activeBuilds", JValue.arr [])] : List (String × JValue)).lookup "activeBuilds" =
      some (JValue.arr [])) ∧
    (get_g2m_info (JValue.obj [("activeBuilds", JValue.arr [])]) =
      Except.error PyError.valueErrorMaxEmpty ∧
     isSpecifiedFailure PyError.valueErrorMaxEmpty = false) :=
  ⟨rfl, C9_empty_builds_uncaught _ rfl⟩

/-- Witness for C10: the malformed build number sits between two valid
entries and is not the maximum-build entry. -/
theorem C10_bad_build_number_uncaught_witness :
    (∃ e ∈ ([⟨"100", some "https://cdn.example.com/100/App.dmg"⟩,
      ⟨"not-a-number", some "https://cdn.example.com/x/App.dmg"⟩,
      ⟨"200", some "https://cdn.example.com/200/App.dmg"⟩] : List BuildEntry),
      pyInt e.buildNumber = none) ∧
    (get_g2m_info (feedToJson
        [⟨"100", some "https://cdn.example.com/100/App.dmg"⟩,
         ⟨"not-a-number", some "https://cdn.example.com/x/App.dmg"⟩,
         ⟨"200", some "https://cdn.example.com/200/App.dmg"⟩]) =
      Except.error PyError.valueErrorIntParse ∧
     isSpecifiedFailure PyError.valueErrorIntParse = false) :=
  ⟨by decide, C10_bad_build_number_uncaught _ (by decide)⟩
end G2M
